import Mathlib

/-!
Shallow embedding of the cellardoor3 backend (`src/backend/src/main.rs`):
the 1-Wire identifier codec (`parse_1w_id`), the flat persistence format
(`serialize_1w_devices` / `deserialize_1w_devices`), the registry-body
parser and the diff-and-persist step of `mos_refresh`.

Strings from the Rust code are modelled as `List Char` (the inputs of
interest are ASCII, so Rust byte indices coincide with character indices);
bytes are `Nat` values below 256; the `DashSet` of 7-byte identifiers is a
`Finset` of byte lists.  A Rust panic (out-of-range string slice, `unwrap`
on an `Err`) is modelled as an explicit `panic` outcome.
-/

namespace Cellardoor

/-- The Rust `OneWireId = [u8; 7]`, modelled as a list of byte values
(7 elements for every value actually produced by the code). -/
abbrev OneWireId := List Nat

/-- Classification of the decoder's error results: `badFormat` is the
`context("Wrong id format")` failure of `split_once('-')`, `badHex` a
`u8::from_str_radix` failure propagated with `?`. -/
inductive ParseError
  | badFormat
  | badHex
deriving DecidableEq

/-- Outcome of `parse_1w_id`: a decoded byte vector, an error returned as
`anyhow::Result::Err`, or a Rust panic (reached by the out-of-range string
slice `&id[idx*2..idx*2+2]`). -/
inductive ParseResult
  | ok (bytes : List Nat)
  | err (e : ParseError)
  | panic
deriving DecidableEq

/-- Rust `str::split_once(sep)`: split at the first occurrence of `sep`,
returning the parts before and after it, or `none` when absent. -/
def splitOnce (sep : Char) : List Char → Option (List Char × List Char)
  | [] => none
  | c :: rest =>
    if c = sep then some ([], rest)
    else (splitOnce sep rest).map fun p => (c :: p.1, p.2)

/-- Value of one hexadecimal digit, as in Rust `char::to_digit(16)`. -/
def hexVal (c : Char) : Option Nat :=
  if '0' ≤ c ∧ c ≤ '9' then some (c.toNat - '0'.toNat)
  else if 'a' ≤ c ∧ c ≤ 'f' then some (c.toNat - 'a'.toNat + 10)
  else if 'A' ≤ c ∧ c ≤ 'F' then some (c.toNat - 'A'.toNat + 10)
  else none

/-- Rust `u8::from_str_radix(s, 16)`: an optional leading `+`, then at
least one hex digit; fails on an empty digit string, on a non-digit, and
when the value overflows a `u8` (checked accumulation means overflow is
equivalent to the final value exceeding 255). -/
def u8FromStrRadix16 (s : List Char) : Option Nat :=
  let digits : List Char :=
    match s with
    | '+' :: rest => rest
    | _ => s
  match digits with
  | [] => none
  | _ =>
    (digits.foldl (fun acc c => acc.bind fun a => (hexVal c).map fun d => a * 16 + d)
        (some 0)).bind
      fun v => if v ≤ 255 then some v else none

/-- The `for idx in 0..6` loop of `parse_1w_id`: for each index, slice
`id[idx*2..idx*2+2]` (a slice past the end of the string is a Rust panic)
and parse it as one hex byte, appending it to the bytes decoded so far. -/
def parseSerialAux (id : List Char) : List Nat → List Nat → ParseResult
  | [], acc => .ok acc
  | idx :: idxs, acc =>
    if idx * 2 + 2 ≤ id.length then
      match u8FromStrRadix16 ((id.drop (idx * 2)).take 2) with
      | none => .err .badHex
      | some b => parseSerialAux id idxs (acc ++ [b])
    else .panic

/-- `parse_1w_id` from `main.rs`: split at the first `-` (absence is the
"Wrong id format" error), parse the family byte from the text before it,
then decode six two-digit hex groups from the text after it. -/
def parse_1w_id (s : List Char) : ParseResult :=
  match splitOnce '-' s with
  | none => .err .badFormat
  | some (devtype, id) =>
    match u8FromStrRadix16 devtype with
    | none => .err .badHex
    | some b0 => parseSerialAux id [0, 1, 2, 3, 4, 5] [b0]

/-- `serialize_1w_devices` from `main.rs`: write every member's 7 raw
bytes one after the other (`file.write_all(&*id)` in iteration order);
the file contents are the concatenation of the records. -/
def serialize_1w_devices (list : List OneWireId) : List Nat :=
  list.foldr (· ++ ·) []

/-- The `read_exact` loop of `deserialize_1w_devices`: take consecutive
7-byte records; when fewer than 7 bytes remain, `read_exact` fails with
`ErrorKind::UnexpectedEof` and the loop breaks — both at a clean
end-of-file and on a trailing fragment, which is therefore dropped. -/
def readRecords : List Nat → List OneWireId
  | b1 :: b2 :: b3 :: b4 :: b5 :: b6 :: b7 :: rest =>
    [b1, b2, b3, b4, b5, b6, b7] :: readRecords rest
  | _ => []

/-- `deserialize_1w_devices` from `main.rs`, over the file contents:
`none` models a `File::open` failure (missing file), which is returned as
`Err`; given contents, the `read_exact` loop only ever ends by breaking on
`UnexpectedEof`, so the set of complete records is returned as `Ok`.
(A non-EOF read error from the OS would also be returned as `Err`; it is
environmental and not representable from the contents.) -/
def deserialize_1w_devices (file : Option (List Nat)) : Except String (Finset OneWireId) :=
  match file with
  | none => .error "No such file or directory"
  | some bytes => .ok (readRecords bytes).toFinset

/-- The access-list initialisation in `main`: `deserialize_1w_devices(..)
.unwrap_or_else(|e| { log; DashSet::new() })` — a load error degrades to
the empty set. -/
def loadAccessList (file : Option (List Nat)) : Finset OneWireId :=
  match deserialize_1w_devices file with
  | .ok s => s
  | .error _ => ∅

/-- Result of one diff step of `mos_refresh` (lines 119–130 of
`main.rs`): the new contents of `access_list`, the removed and added
counts as logged, and the `updated` flag that gates the persistence
write. -/
structure DiffResult where
  set : Finset OneWireId
  removedCount : Nat
  addedCount : Nat
  changed : Bool
deriving DecidableEq

/-- The diff step of `mos_refresh`:
`access_list.retain(|button| ids.remove(button))` keeps exactly the old
members present in `desired` and strips them from `desired`, so after it
`access_list = old ∩ desired` and `ids = desired \ old`; the removed
count is `old_len - access_list.len()`; `updated = !ids.is_empty() ||
old_len - access_list.len() > 0` is computed before the remaining `ids`
are inserted. -/
def mosDiff (old desired : Finset OneWireId) : DiffResult :=
  let retained := old ∩ desired
  let remaining := desired \ old
  let removed := old.card - retained.card
  { set := retained ∪ remaining
    removedCount := removed
    addedCount := remaining.card
    changed := (remaining.card != 0) || (removed != 0) }

/-- Rust `str::trim` on a character list: whitespace stripped from both
ends. -/
def trimChars (l : List Char) : List Char :=
  ((l.dropWhile Char.isWhitespace).reverse.dropWhile Char.isWhitespace).reverse

/-- One iteration of the line loop of `mos_refresh`: trim the line; skip
it when blank or starting with `#`; otherwise split at the first comma
(no comma: the `if let` does not fire and the line is skipped) and decode
the id text with `parse_1w_id`, inserting on success and only logging on
`Err`.  `none` models the decoder panicking on this line (which unwinds
the whole refresh thread). -/
def processLine (line : List Char) : Option (Finset OneWireId) :=
  let t := trimChars line
  if t.isEmpty || t.head? == some '#' then some ∅
  else
    match splitOnce ',' t with
    | none => some ∅
    | some (idText, _name) =>
      match parse_1w_id idText with
      | .ok id => some {id}
      | .err _ => some ∅
      | .panic => none

/-- The body-parsing loop of `mos_refresh` over the lines of the response
text: accumulate every successfully decoded id into one set; a panic
while processing any line aborts everything (`none`). -/
def parseBody : List (List Char) → Option (Finset OneWireId)
  | [] => some ∅
  | l :: ls =>
    match processLine l with
    | none => none
    | some s => (parseBody ls).map fun rest => s ∪ rest

/-- Outcome of the registry fetch in one cycle of `mos_refresh`:
`sendErr` is a transport failure or timeout (`client.get(..).send()`
returning `Err`); `response success body` is a received response with its
status-success flag and its body — `body = none` models `resp.text()`
failing, `some lines` the text split into lines by `str::lines`. -/
inductive FetchResult
  | sendErr
  | response (success : Bool) (body : Option (List (List Char)))

/-- How one iteration of the `mos_refresh` loop ends: `next set wrote`
means the loop reaches the sleep and continues with `access_list = set`,
having invoked `serialize_1w_devices` iff `wrote`; `panic` means the
refresh thread unwinds (an `unwrap` or slice panic). -/
inductive CycleOutcome
  | next (set : Finset OneWireId) (wrote : Bool)
  | panic
deriving DecidableEq

/-- One iteration of the `loop` in `mos_refresh`, as a function of the
prior `access_list` contents and the fetch outcome: a send error is
logged and the loop sleeps; a non-success status falls through to the
sleep; on success the body is read with `resp.text().unwrap()` (a read
failure panics), parsed line by line, and the diff step runs, persisting
iff `updated`. -/
def mosRefreshCycle (old : Finset OneWireId) (fetch : FetchResult) : CycleOutcome :=
  match fetch with
  | .sendErr => .next old false
  | .response success body =>
    if success then
      match body with
      | none => .panic
      | some lines =>
        match parseBody lines with
        | none => .panic
        | some desired =>
          let d := mosDiff old desired
          .next d.set d.changed
    else .next old false

/-! ### Helper lemmas -/

theorem splitOnce_eq_none (sep : Char) (s : List Char) (h : sep ∉ s) :
    splitOnce sep s = none := by
  induction s with
  | nil => rfl
  | cons c rest ih =>
    have hc : ¬c = sep := fun hc => h (List.mem_cons.mpr (Or.inl hc.symm))
    simp [splitOnce, if_neg hc, ih fun hm => h (List.mem_cons_of_mem _ hm)]

theorem splitOnce_append (sep : Char) (pre rest : List Char) (h : sep ∉ pre) :
    splitOnce sep (pre ++ sep :: rest) = some (pre, rest) := by
  induction pre with
  | nil => simp [splitOnce]
  | cons c cs ih =>
    have hc : ¬c = sep := fun hc => h (List.mem_cons.mpr (Or.inl hc.symm))
    simp [splitOnce, if_neg hc, ih fun hm => h (List.mem_cons_of_mem _ hm)]

theorem parseSerialAux_append (serial extra : List Char) (idxs acc : List Nat)
    (hb : ∀ i ∈ idxs, i * 2 + 2 ≤ serial.length) :
    parseSerialAux (serial ++ extra) idxs acc = parseSerialAux serial idxs acc := by
  induction idxs generalizing acc with
  | nil => rfl
  | cons i is ih =>
    have hi : i * 2 + 2 ≤ serial.length := hb i (List.mem_cons_self _ _)
    have hlen : i * 2 + 2 ≤ (serial ++ extra).length := by
      simp only [List.length_append]; omega
    have hslice : ((serial ++ extra).drop (i * 2)).take 2 = (serial.drop (i * 2)).take 2 := by
      rw [List.drop_append_of_le_length (by omega)]
      rw [List.take_append_of_le_length (by simp only [List.length_drop]; omega)]
    simp only [parseSerialAux, if_pos hi, if_pos hlen, hslice]
    cases u8FromStrRadix16 ((serial.drop (i * 2)).take 2) with
    | none => rfl
    | some b => exact ih (acc ++ [b]) fun j hj => hb j (List.mem_cons_of_mem _ hj)

theorem readRecords_short (l : List Nat) (h : l.length < 7) : readRecords l = [] := by
  match l with
  | [] => rfl
  | [_] => rfl
  | [_, _] => rfl
  | [_, _, _] => rfl
  | [_, _, _, _] => rfl
  | [_, _, _, _, _] => rfl
  | [_, _, _, _, _, _] => rfl
  | _ :: _ :: _ :: _ :: _ :: _ :: _ :: _ =>
    simp only [List.length_cons] at h; omega

theorem readRecords_append_aux : ∀ (n : Nat) (bytes extra : List Nat),
    bytes.length ≤ n → bytes.length % 7 = 0 → extra.length < 7 →
    readRecords (bytes ++ extra) = readRecords bytes := by
  intro n
  induction n with
  | zero =>
    intro bytes extra hle hb he
    obtain rfl : bytes = [] := List.length_eq_zero.mp (Nat.le_zero.mp hle)
    rw [List.nil_append, readRecords_short extra he]
    rfl
  | succ n ih =>
    intro bytes extra hle hb he
    match bytes with
    | [] =>
      rw [List.nil_append, readRecords_short extra he]
      rfl
    | [_] => simp only [List.length_cons, List.length_nil] at hb; omega
    | [_, _] => simp only [List.length_cons, List.length_nil] at hb; omega
    | [_, _, _] => simp only [List.length_cons, List.length_nil] at hb; omega
    | [_, _, _, _] => simp only [List.length_cons, List.length_nil] at hb; omega
    | [_, _, _, _, _] => simp only [List.length_cons, List.length_nil] at hb; omega
    | [_, _, _, _, _, _] => simp only [List.length_cons, List.length_nil] at hb; omega
    | b1 :: b2 :: b3 :: b4 :: b5 :: b6 :: b7 :: rest =>
      have h1 : rest.length ≤ n := by simp only [List.length_cons] at hle; omega
      have h2 : rest.length % 7 = 0 := by simp only [List.length_cons] at hb; omega
      show [b1, b2, b3, b4, b5, b6, b7] :: readRecords (rest ++ extra)
          = [b1, b2, b3, b4, b5, b6, b7] :: readRecords rest
      exact congrArg _ (ih rest extra h1 h2 he)

theorem readRecords_append (bytes extra : List Nat) (hb : bytes.length % 7 = 0)
    (he : extra.length < 7) : readRecords (bytes ++ extra) = readRecords bytes :=
  readRecords_append_aux bytes.length bytes extra le_rfl hb he

theorem exists_seven (id : List Nat) (h : id.length = 7) :
    ∃ a b c d e f g, id = [a, b, c, d, e, f, g] := by
  match id with
  | [a, b, c, d, e, f, g] => exact ⟨a, b, c, d, e, f, g, rfl⟩
  | [] => simp only [List.length_cons, List.length_nil] at h; omega
  | [_] => simp only [List.length_cons, List.length_nil] at h; omega
  | [_, _] => simp only [List.length_cons, List.length_nil] at h; omega
  | [_, _, _] => simp only [List.length_cons, List.length_nil] at h; omega
  | [_, _, _, _] => simp only [List.length_cons, List.length_nil] at h; omega
  | [_, _, _, _, _] => simp only [List.length_cons, List.length_nil] at h; omega
  | [_, _, _, _, _, _] => simp only [List.length_cons, List.length_nil] at h; omega
  | _ :: _ :: _ :: _ :: _ :: _ :: _ :: _ :: _ =>
    simp only [List.length_cons] at h; omega

theorem readRecords_serialize (l : List OneWireId) (h : ∀ id ∈ l, id.length = 7) :
    readRecords (serialize_1w_devices l) = l := by
  induction l with
  | nil => rfl
  | cons id rest ih =>
    obtain ⟨a, b, c, d, e, f, g, rfl⟩ := exists_seven id (h id (List.mem_cons_self _ _))
    show [a, b, c, d, e, f, g] :: readRecords (serialize_1w_devices rest)
        = [a, b, c, d, e, f, g] :: rest
    exact congrArg _ (ih fun x hx => h x (List.mem_cons_of_mem _ hx))

theorem mosDiff_set (S D : Finset OneWireId) : (mosDiff S D).set = D := by
  show S ∩ D ∪ D \ S = D
  rw [Finset.inter_comm, Finset.union_comm, Finset.sdiff_union_inter]

theorem mosDiff_removedCount (S D : Finset OneWireId) :
    (mosDiff S D).removedCount = (S \ D).card := by
  show S.card - (S ∩ D).card = (S \ D).card
  have h := Finset.card_inter_add_card_sdiff S D
  omega

theorem mosDiff_addedCount (S D : Finset OneWireId) :
    (mosDiff S D).addedCount = (D \ S).card := rfl

theorem mosDiff_changed_iff (S D : Finset OneWireId) :
    (mosDiff S D).changed = true ↔ 0 < (D \ S).card ∨ 0 < (S \ D).card := by
  show (((D \ S).card != 0) || ((S.card - (S ∩ D).card) != 0)) = true ↔ _
  have h := Finset.card_inter_add_card_sdiff S D
  simp only [Bool.or_eq_true, bne_iff_ne, ne_eq]
  omega

theorem mosDiff_self (S : Finset OneWireId) : mosDiff S S = ⟨S, 0, 0, false⟩ := by
  simp [mosDiff, Finset.inter_self, Finset.sdiff_self, Finset.union_empty,
    Finset.card_empty, Nat.sub_self]

/-! ### Claims -/

/-- C1 (code evaluated at the failing input): the claim says every input
whose serial portion is shorter than 12 characters is rejected with a
`BadHex` parse error because the length is checked before slicing; in the
code there is no length check, and on `"33-"` (serial portion empty, hence
shorter than 12) the slice `&id[0..2]` is out of range and the decoder
panics instead of returning an error. -/
theorem C1_short_serial_panics : parse_1w_id ['3', '3', '-'] = .panic := by decide

/-- C2 (counterexample): an 8-byte persistence file — length not a
multiple of 7 — does not make `deserialize_1w_devices` return an error;
the trailing 1-byte fragment makes `read_exact` fail with
`UnexpectedEof`, which the loop treats exactly like a clean end-of-file,
so the load succeeds with the single complete record. -/
theorem C2_trailing_fragment_not_error :
    deserialize_1w_devices (some [1, 2, 3, 4, 5, 6, 7, 8]) =
      Except.ok ({[1, 2, 3, 4, 5, 6, 7]} : Finset OneWireId) :=
  congrArg Except.ok (by decide)

/-- C2 (amended): for every persistence file whose length is not a
multiple of 7, `deserialize_1w_devices` silently ignores the trailing
fragment and succeeds with the set of complete 7-byte records (loading a
file with the fragment appended equals loading it without); loading only
errors on an open/IO failure, and the caller then falls back to an empty
set instead of terminating. -/
theorem C2_amended_trailing_fragment_ignored (bytes extra : List Nat)
    (hb : bytes.length % 7 = 0) (he : extra.length < 7) :
    deserialize_1w_devices (some (bytes ++ extra)) = deserialize_1w_devices (some bytes) ∧
    (∃ s, deserialize_1w_devices (some (bytes ++ extra)) = Except.ok s) ∧
    loadAccessList none = ∅ := by
  refine ⟨?_, ⟨(readRecords (bytes ++ extra)).toFinset, rfl⟩, rfl⟩
  exact congrArg Except.ok (congrArg List.toFinset (readRecords_append bytes extra hb he))

/-- Witness for the amended C2: one full record plus a 1-byte fragment. -/
theorem C2_amended_witness :
    deserialize_1w_devices (some ([1, 2, 3, 4, 5, 6, 7] ++ [8])) =
      deserialize_1w_devices (some [1, 2, 3, 4, 5, 6, 7]) ∧
    (∃ s, deserialize_1w_devices (some ([1, 2, 3, 4, 5, 6, 7] ++ [8])) = Except.ok s) ∧
    loadAccessList none = ∅ :=
  C2_amended_trailing_fragment_ignored [1, 2, 3, 4, 5, 6, 7] [8] (by decide) (by decide)

/-- C3 (counterexample): the claim includes "a failure while reading the
response body" among the errors that abort only the current cycle; in the
code that failure hits `resp.text().unwrap()`, which panics the refresh
thread instead of reaching the sleep. -/
theorem C3_body_read_failure_panics :
    mosRefreshCycle ∅ (.response true none) = .panic := rfl

/-- C3 (amended): a transport failure or timeout of the fetch, and a
non-success HTTP status, each abort only the current refresh cycle: the
error is logged, the set and the write flag are untouched, and the loop
reaches the sleep; a failure while reading the response body, however,
panics the refresh thread (though even that unwinds only the spawned
thread, not the process). -/
theorem C3_amended_handled_outcomes_continue (old : Finset OneWireId)
    (body : Option (List (List Char))) :
    mosRefreshCycle old .sendErr = .next old false ∧
    mosRefreshCycle old (.response false body) = .next old false :=
  ⟨rfl, rfl⟩

/-- C4: one diff step leaves the set equal to the decoded registry set
`D`, with `removedCount = |S \ D|`, `addedCount = |D \ S|`, and `changed`
true iff something was added or removed. -/
theorem C4_diff_step (S D : Finset OneWireId) :
    (mosDiff S D).set = D ∧
    (mosDiff S D).removedCount = (S \ D).card ∧
    (mosDiff S D).addedCount = (D \ S).card ∧
    ((mosDiff S D).changed = true ↔ 0 < (D \ S).card ∨ 0 < (S \ D).card) :=
  ⟨mosDiff_set S D, mosDiff_removedCount S D, mosDiff_addedCount S D, mosDiff_changed_iff S D⟩

/-- C5: saving any finite list of 7-byte identifiers and loading the
resulting file yields a set equal to the original. -/
theorem C5_save_load_roundtrip (l : List OneWireId) (h : ∀ id ∈ l, id.length = 7) :
    deserialize_1w_devices (some (serialize_1w_devices l)) = Except.ok l.toFinset :=
  congrArg Except.ok (congrArg List.toFinset (readRecords_serialize l h))

/-- Witness for C5: a one-element set round-trips. -/
theorem C5_witness :
    deserialize_1w_devices
        (some (serialize_1w_devices [[0x33, 0x00, 0x00, 0x03, 0x92, 0xc6, 0xea]])) =
      Except.ok ([[0x33, 0x00, 0x00, 0x03, 0x92, 0xc6, 0xea]] : List OneWireId).toFinset :=
  C5_save_load_roundtrip _ (by decide)

/-- C6: when the decoded registry set equals the current set, the diff
reports no change, leaves the set untouched and does not invoke the
persistence write; consequently, after a first cycle on some registry
body has installed the decoded set `D`, a second cycle on the same body
keeps `D` and performs no write. -/
theorem C6_unchanged_no_write (S D : Finset OneWireId) (lines : List (List Char))
    (h : parseBody lines = some D) :
    mosDiff S S = ⟨S, 0, 0, false⟩ ∧
    (∃ w, mosRefreshCycle S (.response true (some lines)) = .next D w) ∧
    mosRefreshCycle D (.response true (some lines)) = .next D false := by
  refine ⟨mosDiff_self S, ⟨(mosDiff S D).changed, ?_⟩, ?_⟩
  · simp only [mosRefreshCycle, h, if_pos]
    rw [mosDiff_set]
  · simp only [mosRefreshCycle, h, if_pos]
    rw [mosDiff_self]

/-- Witness for C6: a concrete one-line registry body, starting from a
set that differs from it. -/
theorem C6_witness :
    mosDiff ({[1, 1, 1, 1, 1, 1, 1]} : Finset OneWireId) {[1, 1, 1, 1, 1, 1, 1]} =
      ⟨{[1, 1, 1, 1, 1, 1, 1]}, 0, 0, false⟩ ∧
    (∃ w, mosRefreshCycle {[1, 1, 1, 1, 1, 1, 1]}
        (.response true (some ["33-00000392c6ea,door".data])) =
        .next {[0x33, 0x00, 0x00, 0x03, 0x92, 0xc6, 0xea]} w) ∧
    mosRefreshCycle {[0x33, 0x00, 0x00, 0x03, 0x92, 0xc6, 0xea]}
        (.response true (some ["33-00000392c6ea,door".data])) =
      .next {[0x33, 0x00, 0x00, 0x03, 0x92, 0xc6, 0xea]} false :=
  C6_unchanged_no_write _ _ _ (by decide)

/-- C7 (code evaluated at the failing input): the claim says a line whose
id fails to decode is dropped without affecting any other line; the three
benign malformed lines are indeed skipped (second conjunct), but a line
whose serial portion is too short — `"33-0,x"` — panics the decoder, so
body parsing aborts and the subsequent well-formed line never contributes
(first conjunct), even though that line alone decodes fine. -/
theorem C7_line_panic_blocks_later_lines :
    parseBody ["33-0,x".data, "33-00000392c6ea,door".data] = none ∧
    parseBody ["".data, "#comment".data, "bad-line-no-comma".data, "33-00000392c6ea,door".data]
      = some {[0x33, 0x00, 0x00, 0x03, 0x92, 0xc6, 0xea]} :=
  ⟨by decide, by decide⟩

/-- C8: decoding the documented identifier text yields exactly the 7
bytes, family byte first and the six serial bytes in order (this is also
the repository's own unit test `parse_1w_id_test`). -/
theorem C8_decode_known_id :
    parse_1w_id "33-00000392c6ea".data = .ok [0x33, 0x00, 0x00, 0x03, 0x92, 0xc6, 0xea] := by
  decide

/-- C9: every input string without a `-` separator fails with the
`BadFormat` parse error and produces no identifier. -/
theorem C9_no_separator_bad_format (s : List Char) (h : '-' ∉ s) :
    parse_1w_id s = .err .badFormat := by
  unfold parse_1w_id
  rw [splitOnce_eq_none '-' s h]

/-- Witness for C9: the separator-free input from the spec. -/
theorem C9_witness : parse_1w_id "33000000392c6ea".data = .err .badFormat :=
  C9_no_separator_bad_format _ (by decide)

/-- C10 (implicit): when the serial portion is longer than 12 characters
but its first 12 characters decode, the decoder succeeds with the same
bytes as on the 12-character serial — everything after the first 12
characters is silently ignored, never rejected. -/
theorem C10_extra_serial_ignored (dt serial extra : List Char) (bs : List Nat)
    (hdt : '-' ∉ dt) (hlen : serial.length = 12)
    (h : parse_1w_id (dt ++ '-' :: serial) = .ok bs) :
    parse_1w_id (dt ++ '-' :: (serial ++ extra)) = .ok bs := by
  unfold parse_1w_id at h ⊢
  rw [splitOnce_append '-' dt serial hdt] at h
  rw [splitOnce_append '-' dt (serial ++ extra) hdt]
  cases hu : u8FromStrRadix16 dt with
  | none =>
    simp only [hu] at h
    exact absurd h (by simp)
  | some b0 =>
    simp only [hu] at h ⊢
    rw [parseSerialAux_append serial extra [0, 1, 2, 3, 4, 5] [b0]
      (by intro i hi; fin_cases hi <;> omega)]
    exact h

/-- Witness for C10: two extra characters after a valid 12-character
serial are ignored. -/
theorem C10_witness :
    parse_1w_id ("33".data ++ '-' :: ("00000392c6ea".data ++ "ff".data)) =
      .ok [0x33, 0x00, 0x00, 0x03, 0x92, 0xc6, 0xea] :=
  C10_extra_serial_ignored "33".data "00000392c6ea".data "ff".data _
    (by decide) (by decide) (by decide)

end Cellardoor
